import Mathlib

/-!
Verification of the GitHub toolset / agent-executor core.

Shallow embedding, in Lean 4, of the algorithmic core of the repository:

* `github_toolset.py` — language classification from filenames,
  heuristic symbol extraction from unified-diff patches (per-language
  regex tables, hunk-header recovery, deduplication), commit
  aggregation and its error boundary;
* `simple_agent_executor.py` and `other/openai_agent_executor.py` —
  the JSON function-schema builder and the bounded tool-dispatch loops.

Python regexes are embedded as executable character-list matchers that
implement the (deterministic fragment of the) backtracking semantics of
each concrete pattern; external collaborators (the GitHub API, the
chat-completion API) are parameters of the embedded functions, modelled
as values of `Except`/oracle type since any of their calls may raise.
-/

set_option maxRecDepth 4000

/-! ## Character classes used by the embedded regexes

Python `\s` is `[ \t\n\r\f\v]`, `\w` is `[A-Za-z0-9_]` (inputs of
interest are ASCII), identifiers in the tables start with
`[A-Za-z_]` (JS/TS variants also allow `$`). -/

def isSpaceChar (c : Char) : Bool :=
  c = ' ' || c = '\t' || c = '\n' || c = '\r' || c = '\x0b' || c = '\x0c'

def isWordChar (c : Char) : Bool :=
  c.isAlphanum || c = '_'

def isIdentStart (c : Char) : Bool :=
  c.isAlpha || c = '_'

def isJsIdentStart (c : Char) : Bool :=
  c.isAlpha || c = '_' || c = '$'

def isJsWordChar (c : Char) : Bool :=
  isWordChar c || c = '$'

/-! ## Small matcher combinators over `List Char` -/

/-- Match a literal character sequence at the head of the input. -/
def litPref : List Char → List Char → Option (List Char)
  | [], cs => some cs
  | _ :: _, [] => none
  | p :: ps, c :: cs => if c = p then litPref ps cs else none

/-- Embeds `\s*` — greedily drop whitespace. -/
def dropSpaces (cs : List Char) : List Char :=
  cs.dropWhile isSpaceChar

/-- Embeds `\s+` — at least one whitespace character, then greedily the rest. -/
def spaces1 (cs : List Char) : Option (List Char) :=
  match cs with
  | c :: rest => if isSpaceChar c then some (rest.dropWhile isSpaceChar) else none
  | [] => none

/-- Match one expected character. -/
def expectChar (c : Char) (cs : List Char) : Option (List Char) :=
  match cs with
  | c0 :: rest => if c0 = c then some rest else none
  | [] => none

/-- Match one character from a set (a regex character class such as `[:\(]`). -/
def expectOneOf (l : List Char) (cs : List Char) : Option (List Char) :=
  match cs with
  | c0 :: rest => if c0 ∈ l then some rest else none
  | [] => none

/-- Capture an identifier group: first char satisfies `startP`, then a
greedy run of `wordP` characters (the classes used all satisfy
`startP c → wordP c`, so the run includes the first char). -/
def identGroup (startP wordP : Char → Bool) (cs : List Char) :
    Option (String × List Char) :=
  match cs with
  | [] => none
  | c :: _ =>
    if startP c then some (String.mk (cs.takeWhile wordP), cs.dropWhile wordP)
    else none

/-- Try alternatives in order; first full success wins (Python regex
alternation `(?:A|B|C)` at the tail of a pattern). -/
def tryAlts {α : Type} : List (List Char → Option α) → List Char → Option α
  | [], _ => none
  | f :: rest, cs =>
    match f cs with
    | some r => some r
    | none => tryAlts rest cs

/-- Embeds `^[+\-]\s*` — the common prefix of all declaration patterns:
one `+` or `-`, then greedy whitespace. -/
def pmStart (line : String) : Option (List Char) :=
  match line.toList with
  | c :: rest => if c = '+' || c = '-' then some (dropSpaces rest) else none
  | [] => none

/-! ## The per-language regex tables of `_parse_symbols_from_patch`

Each Python `re.Pattern` used with `.match` is embedded as a function
`String → Option (List (Option String))` returning the list of capture
groups on a successful match at the start of the line. -/

/-- Embeds `^[+\-]\s*def\s+([A-Za-z_][A-Za-z0-9_]*)\s*\(` (python `func` and
`method` — the source uses the same regex for both). -/
def pyDefMatch (line : String) : Option (List (Option String)) :=
  (pmStart line).bind fun cs =>
  (litPref "def".toList cs).bind fun cs2 =>
  (spaces1 cs2).bind fun cs3 =>
  (identGroup isIdentStart isWordChar cs3).bind fun pr =>
  (expectChar '(' (dropSpaces pr.2)).map fun _ => [some pr.1]

/-- Embeds `^[+\-]\s*class\s+([A-Za-z_][A-Za-z0-9_]*)\s*[:\(]` (python `class`). -/
def pyClassMatch (line : String) : Option (List (Option String)) :=
  (pmStart line).bind fun cs =>
  (litPref "class".toList cs).bind fun cs2 =>
  (spaces1 cs2).bind fun cs3 =>
  (identGroup isIdentStart isWordChar cs3).bind fun pr =>
  (expectOneOf [':', '('] (dropSpaces pr.2)).map fun _ => [some pr.1]

/-- Embeds `[^X]*` followed by a continuation that must start with a character
in `X` — deterministic because shrinking the greedy run leaves a
character the continuation cannot accept. -/
def takeNot (stop : List Char) (cs : List Char) : List Char × List Char :=
  (cs.takeWhile (fun c => !(c ∈ stop)), cs.dropWhile (fun c => !(c ∈ stop)))

/-- Branch `function\s+([A-Za-z_$][\w$]*)\s*\(` of the javascript `func`
regex. -/
def jsFuncBranchA (cs : List Char) : Option (List (Option String)) :=
  (litPref "function".toList cs).bind fun cs1 =>
  (spaces1 cs1).bind fun cs2 =>
  (identGroup isJsIdentStart isJsWordChar cs2).bind fun pr =>
  (expectChar '(' (dropSpaces pr.2)).map fun _ => [some pr.1, none, none]

/-- Branch `const\s+([A-Za-z_$][\w$]*)\s*=\s*\([^)]*\)\s*=>` of the
javascript / typescript `func` regexes. -/
def jsFuncBranchB (cs : List Char) : Option (List (Option String)) :=
  (litPref "const".toList cs).bind fun cs1 =>
  (spaces1 cs1).bind fun cs2 =>
  (identGroup isJsIdentStart isJsWordChar cs2).bind fun pr =>
  (expectChar '=' (dropSpaces pr.2)).bind fun cs3 =>
  (expectChar '(' (dropSpaces cs3)).bind fun cs4 =>
  (expectChar ')' (takeNot [')'] cs4).2).bind fun cs5 =>
  (litPref "=>".toList (dropSpaces cs5)).map fun _ => [none, some pr.1, none]

/-- Branch `([A-Za-z_$][\w$]*)\s*=\s*function\s*\(` of the javascript
`func` regex. -/
def jsFuncBranchC (cs : List Char) : Option (List (Option String)) :=
  (identGroup isJsIdentStart isJsWordChar cs).bind fun pr =>
  (expectChar '=' (dropSpaces pr.2)).bind fun cs1 =>
  (litPref "function".toList (dropSpaces cs1)).bind fun cs2 =>
  (expectChar '(' (dropSpaces cs2)).map fun _ => [none, none, some pr.1]

/-- Embeds `^[+\-]\s*(?:function\s+(g1)\s*\(|const\s+(g2)\s*=\s*\([^)]*\)\s*=>|(g3)\s*=\s*function\s*\()`
(javascript `func`): alternation tried in source order. -/
def jsFuncMatch (line : String) : Option (List (Option String)) :=
  (pmStart line).bind (tryAlts [jsFuncBranchA, jsFuncBranchB, jsFuncBranchC])

/-- Embeds `^[+\-]\s*class\s+([A-Za-z_$][\w$]*)\s*` (javascript and typescript
`class` — the trailing `\s*` always matches). -/
def jsClassMatch (line : String) : Option (List (Option String)) :=
  (pmStart line).bind fun cs =>
  (litPref "class".toList cs).bind fun cs1 =>
  (spaces1 cs1).bind fun cs2 =>
  (identGroup isJsIdentStart isJsWordChar cs2).map fun pr => [some pr.1]

/-- Embeds `([A-Za-z_$][\w$]*)\s*\([^)]*\)\s*\{` — the common tail of the
javascript / typescript `method` regexes. -/
def jsMethodCore (cs : List Char) : Option (List (Option String)) :=
  (identGroup isJsIdentStart isJsWordChar cs).bind fun pr =>
  (expectChar '(' (dropSpaces pr.2)).bind fun cs1 =>
  (expectChar ')' (takeNot [')'] cs1).2).bind fun cs2 =>
  (expectChar '\x7b' (dropSpaces cs2)).map fun _ => [some pr.1]

/-- Embeds `^[+\-]\s*([A-Za-z_$][\w$]*)\s*\([^)]*\)\s*\{` (javascript `method`). -/
def jsMethodMatch (line : String) : Option (List (Option String)) :=
  (pmStart line).bind jsMethodCore

/-- Embeds `^[+\-]\s*(?:function\s+(g1)\s*\(|const\s+(g2)\s*=\s*\([^)]*\)\s*=>)`
(typescript `func`: only the first two javascript branches). -/
def tsFuncMatch (line : String) : Option (List (Option String)) :=
  (pmStart line).bind (tryAlts [jsFuncBranchA, jsFuncBranchB])

/-- An optional leading keyword `(?:kw1|kw2|...)?\s*` before a core
pattern: Python tries the keyword branches in order, then the empty
branch, each followed by the full remainder of the pattern. -/
def withOptionalKw {α : Type} (kws : List String) (core : List Char → Option α)
    (cs : List Char) : Option α :=
  tryAlts
    ((kws.map fun kw => fun cs0 =>
        (litPref kw.toList cs0).bind fun rest => core (dropSpaces rest)) ++
      [fun cs0 => core (dropSpaces cs0)])
    cs

/-- Embeds `^[+\-]\s*(?:public|private|protected|static|readonly|async)?\s*([A-Za-z_$][\w$]*)\s*\([^)]*\)\s*\{`
(typescript `method`). -/
def tsMethodMatch (line : String) : Option (List (Option String)) :=
  (pmStart line).bind
    (withOptionalKw ["public", "private", "protected", "static", "readonly", "async"]
      jsMethodCore)

/-- Embeds `[\w\<\>\[\]]` — the java type-token character class. -/
def isJavaTypeChar (c : Char) : Bool :=
  isWordChar c || c = '<' || c = '>' || c = '[' || c = ']'

/-- Embeds `[\w\<\>\[\]]+\s+([a-zA-Z_][\w]*)\s*\(` — the tail of the java
`func`/`method` regex after the optional modifier.  Deterministic: the
type class contains no whitespace, so the greedy run cannot be
shortened. -/
def javaFuncCore (cs : List Char) : Option (List (Option String)) :=
  match cs with
  | [] => none
  | c :: _ =>
    if isJavaTypeChar c then
      (spaces1 (cs.dropWhile isJavaTypeChar)).bind fun cs1 =>
      (identGroup isIdentStart isWordChar cs1).bind fun pr =>
      (expectChar '(' (dropSpaces pr.2)).map fun _ => [some pr.1]
    else none

/-- Embeds `^[+\-]\s*(?:public|private|protected|static|final|synchronized|native|abstract|default)?\s*[\w\<\>\[\]]+\s+([a-zA-Z_][\w]*)\s*\(`
(java `func` and `method` — the source uses the same regex for both). -/
def javaFuncMatch (line : String) : Option (List (Option String)) :=
  (pmStart line).bind
    (withOptionalKw
      ["public", "private", "protected", "static", "final", "synchronized",
       "native", "abstract", "default"]
      javaFuncCore)

/-- Embeds `(?:final\s+)?class\s+([A-Za-z_][\w]*)` — tail of the java `class`
regex. -/
def javaClassCore (cs : List Char) : Option (List (Option String)) :=
  tryAlts
    [fun cs0 =>
      (litPref "final".toList cs0).bind fun cs1 =>
      (spaces1 cs1).bind fun cs2 =>
      (litPref "class".toList cs2).bind fun cs3 =>
      (spaces1 cs3).bind fun cs4 =>
      (identGroup isIdentStart isWordChar cs4).map fun pr => [some pr.1],
     fun cs0 =>
      (litPref "class".toList cs0).bind fun cs1 =>
      (spaces1 cs1).bind fun cs2 =>
      (identGroup isIdentStart isWordChar cs2).map fun pr => [some pr.1]]
    cs

/-- Embeds `^[+\-]\s*(?:public|private|protected)?\s*(?:final\s+)?class\s+([A-Za-z_][\w]*)`
(java `class`). -/
def javaClassMatch (line : String) : Option (List (Option String)) :=
  (pmStart line).bind
    (withOptionalKw ["public", "private", "protected"] javaClassCore)

/-- Embeds `^[+\-]\s*func\s+(?:\([^)]*\)\s*)?([A-Za-z_][\w]*)\s*\(` (go `func`):
an optional receiver clause, alternation tried receiver-first. -/
def goFuncMatch (line : String) : Option (List (Option String)) :=
  (pmStart line).bind fun cs =>
  (litPref "func".toList cs).bind fun cs1 =>
  (spaces1 cs1).bind
    (tryAlts
      [fun cs2 =>
        (expectChar '(' cs2).bind fun cs3 =>
        (expectChar ')' (takeNot [')'] cs3).2).bind fun cs4 =>
        (identGroup isIdentStart isWordChar (dropSpaces cs4)).bind fun pr =>
        (expectChar '(' (dropSpaces pr.2)).map fun _ => [some pr.1],
       fun cs2 =>
        (identGroup isIdentStart isWordChar cs2).bind fun pr =>
        (expectChar '(' (dropSpaces pr.2)).map fun _ => [some pr.1]])

/-- Embeds `\bstruct\b\s+([A-Za-z_][\w]*)` used with `.match` (go `class`):
anchored at position 0, so the line itself must start with the word
`struct` — diff lines starting with `+`/`-` can never match. -/
def goClassMatch (line : String) : Option (List (Option String)) :=
  (litPref "struct".toList line.toList).bind fun cs =>
  (spaces1 cs).bind fun cs1 =>
  (identGroup isIdentStart isWordChar cs1).map fun pr => [some pr.1]

/-- Embeds `^[+\-]\s*func\s*\([^)]*\)\s*([A-Za-z_][\w]*)\s*\(` (go `method`). -/
def goMethodMatch (line : String) : Option (List (Option String)) :=
  (pmStart line).bind fun cs =>
  (litPref "func".toList cs).bind fun cs1 =>
  (expectChar '(' (dropSpaces cs1)).bind fun cs2 =>
  (expectChar ')' (takeNot [')'] cs2).2).bind fun cs3 =>
  (identGroup isIdentStart isWordChar (dropSpaces cs3)).bind fun pr =>
  (expectChar '(' (dropSpaces pr.2)).map fun _ => [some pr.1]

/-- Backtracking for `[C]+` where the class `C` contains `\s`: the
greedy engine prefers the longest run, shrinking one character at a
time until the continuation succeeds (at least one character must be
consumed). `n` is the length of the maximal run. -/
def tryLenDesc {α : Type} (cont : List Char → Option α) (cs : List Char) :
    Nat → Option α
  | 0 => none
  | n + 1 =>
    match cont (cs.drop (n + 1)) with
    | some r => some r
    | none => tryLenDesc cont cs n

/-- Embeds `[C]+` followed by `cont`, with the Python greedy-backtracking
preference for the longest consumed prefix. -/
def plusThen {α : Type} (classP : Char → Bool) (cont : List Char → Option α)
    (cs : List Char) : Option α :=
  tryLenDesc cont cs (cs.takeWhile classP).length

/-- Embeds `^[+\-]\s*(?:global|public|private|protected)?\s*class\s+([A-Za-z_][\w]*)`
(apex `class`). -/
def apexClassMatch (line : String) : Option (List (Option String)) :=
  (pmStart line).bind
    (withOptionalKw ["global", "public", "private", "protected"]
      (fun cs =>
        (litPref "class".toList cs).bind fun cs1 =>
        (spaces1 cs1).bind fun cs2 =>
        (identGroup isIdentStart isWordChar cs2).map fun pr => [some pr.1]))

/-- Embeds `[\w<>,\[\]\s]` — the apex method type class (note: contains `\s`). -/
def isApexTypeChar (c : Char) : Bool :=
  isWordChar c || c = '<' || c = '>' || c = ',' || c = '[' || c = ']' ||
    isSpaceChar c

/-- Embeds `[\w<>,\[\]\s]+\s+([A-Za-z_][\w]*)\s*\(` — tail of the apex `method`
regex, with backtracking over the whitespace-containing type class. -/
def apexMethodCore (cs : List Char) : Option (List (Option String)) :=
  plusThen isApexTypeChar
    (fun rest =>
      (spaces1 rest).bind fun cs1 =>
      (identGroup isIdentStart isWordChar cs1).bind fun pr =>
      (expectChar '(' (dropSpaces pr.2)).map fun _ => [some pr.1])
    cs

/-- Embeds `^[+\-]\s*(?:global|public|private|protected|static|virtual|override|abstract|testmethod)?\s*[\w<>,\[\]\s]+\s+([A-Za-z_][\w]*)\s*\(`
(apex `method`). -/
def apexMethodMatch (line : String) : Option (List (Option String)) :=
  (pmStart line).bind
    (withOptionalKw
      ["global", "public", "private", "protected", "static", "virtual",
       "override", "abstract", "testmethod"]
      apexMethodCore)

/-- Embeds `^[+\-]\s*trigger\s+([A-Za-z_][\w]*)\s+on\s+[A-Za-z_][\w]*\s*\(`
(apex `func`). -/
def apexTriggerMatch (line : String) : Option (List (Option String)) :=
  (pmStart line).bind fun cs =>
  (litPref "trigger".toList cs).bind fun cs1 =>
  (spaces1 cs1).bind fun cs2 =>
  (identGroup isIdentStart isWordChar cs2).bind fun pr =>
  (spaces1 pr.2).bind fun cs3 =>
  (litPref "on".toList cs3).bind fun cs4 =>
  (spaces1 cs4).bind fun cs5 =>
  (identGroup isIdentStart isWordChar cs5).bind fun pr2 =>
  (expectChar '(' (dropSpaces pr2.2)).map fun _ => [some pr.1]

/-- Embeds `[\w\s\*]` — the C type-prefix character class. -/
def isCTypeChar (c : Char) : Bool :=
  isWordChar c || isSpaceChar c || c = '*'

/-- Descending-length backtracking restricted to prefixes that end in a
whitespace character (the shape matched by `(?:[A-Za-z_][\w\s\*]*\s+)+`). -/
def tryEndsWsDesc {α : Type} (cont : List Char → Option α) (cs : List Char) :
    Nat → Option α
  | 0 => none
  | n + 1 =>
    if isSpaceChar ((cs.get? n).getD 'x') then
      match cont (cs.drop (n + 1)) with
      | some r => some r
      | none => tryEndsWsDesc cont cs n
    else tryEndsWsDesc cont cs n

/-- Embeds `(?:[A-Za-z_][\w\s\*]*\s+)+` followed by `cont`: the repetition as a
whole matches exactly the prefixes that start with an identifier-start
character, consist of `[\w\s\*]` characters and end in whitespace;
greedy preference for the longest such prefix. -/
def cTypePrefixThen {α : Type} (cont : List Char → Option α)
    (cs : List Char) : Option α :=
  match cs with
  | [] => none
  | c :: _ =>
    if isIdentStart c then
      tryEndsWsDesc cont cs (cs.takeWhile isCTypeChar).length
    else none

/-- Backtracking for `[^;]*\)` where the class still contains `)`:
greedy preference for the longest run of allowed characters before the
closing parenthesis. `n + 1` characters are consumed at step `n`. -/
def tryStarDesc {α : Type} (cont : List Char → Option α) (cs : List Char) :
    Nat → Option α
  | 0 => cont cs
  | n + 1 =>
    match cont (cs.drop (n + 1)) with
    | some r => some r
    | none => tryStarDesc cont cs n

/-- Embeds `[C]*` followed by `cont`, greedy with backtracking. -/
def starThen {α : Type} (classP : Char → Bool) (cont : List Char → Option α)
    (cs : List Char) : Option α :=
  tryStarDesc cont cs (cs.takeWhile classP).length

/-- Embeds `^[+\-]\s*(?:[A-Za-z_][\w\s\*]*\s+)+([A-Za-z_][\w]*)\s*\([^;]*\)\s*\{`
(c `func`). -/
def cFuncMatch (line : String) : Option (List (Option String)) :=
  (pmStart line).bind
    (cTypePrefixThen fun rest =>
      (identGroup isIdentStart isWordChar rest).bind fun pr =>
      (expectChar '(' (dropSpaces pr.2)).bind fun cs1 =>
      starThen (fun c => !(c = ';'))
        (fun cs2 =>
          (expectChar ')' cs2).bind fun cs3 =>
          (expectChar '\x7b' (dropSpaces cs3)).map fun _ => [some pr.1])
        cs1)

/-- Embeds `([A-Za-z_][\w]*(?:::[A-Za-z_][\w]*)?)` — a C++ identifier with an
optional `::`-qualified second component (greedy; if the optional part
is absent the remaining input starts with a character on which the
continuations of the patterns fail, so no further backtracking is needed). -/
def cppScopedIdent (cs : List Char) : Option (String × List Char) :=
  (identGroup isIdentStart isWordChar cs).bind fun pr =>
    match pr.2 with
    | ':' :: ':' :: rest =>
      match identGroup isIdentStart isWordChar rest with
      | some pr2 => some (pr.1 ++ "::" ++ pr2.1, pr2.2)
      | none => some pr
    | _ => some pr

/-- Embeds `^[+\-]\s*(?:template\s*<[^>]+>\s*)?(?:class|struct)\s+([A-Za-z_][\w]*)`
(cpp `class`). -/
def cppClassMatch (line : String) : Option (List (Option String)) :=
  (pmStart line).bind fun cs =>
    let core := fun cs0 =>
      (tryAlts [litPref "class".toList, litPref "struct".toList] cs0).bind fun cs1 =>
      (spaces1 cs1).bind fun cs2 =>
      (identGroup isIdentStart isWordChar cs2).map fun pr => [some pr.1]
    tryAlts
      [fun cs0 =>
        (litPref "template".toList cs0).bind fun cs1 =>
        (expectChar '<' (dropSpaces cs1)).bind fun cs2 =>
        let pr := takeNot ['>'] cs2
        if pr.1.isEmpty then none
        else (expectChar '>' pr.2).bind fun cs3 => core (dropSpaces cs3),
       core]
      cs

/-- Embeds `[\w:<>,\s\*&]` — the C++ type-prefix character class. -/
def isCppTypeChar (c : Char) : Bool :=
  isWordChar c || c = ':' || c = '<' || c = '>' || c = ',' ||
    isSpaceChar c || c = '*' || c = '&'

/-- Embeds `^[+\-]\s*(?:[\w:<>,\s\*&]+)\s+([A-Za-z_][\w]*(?:::[A-Za-z_][\w]*)?)\s*\([^;{)]*\)\s*\{`
(cpp `func` and `method` — the source uses the same regex for both). -/
def cppFuncMatch (line : String) : Option (List (Option String)) :=
  (pmStart line).bind
    (plusThen isCppTypeChar fun rest =>
      (spaces1 rest).bind fun cs1 =>
      (cppScopedIdent cs1).bind fun pr =>
      (expectChar '(' (dropSpaces pr.2)).bind fun cs2 =>
      (expectChar ')' (takeNot [';', '\x7b', ')'] cs2).2).bind fun cs3 =>
      (expectChar '\x7b' (dropSpaces cs3)).map fun _ => [some pr.1])

/-- Embeds `^[+\-]\s*(?:public|private|protected|internal|sealed|abstract|partial|static)?\s*class\s+([A-Za-z_][\w]*)`
(csharp `class`). -/
def csharpClassMatch (line : String) : Option (List (Option String)) :=
  (pmStart line).bind
    (withOptionalKw
      ["public", "private", "protected", "internal", "sealed", "abstract",
       "partial", "static"]
      (fun cs =>
        (litPref "class".toList cs).bind fun cs1 =>
        (spaces1 cs1).bind fun cs2 =>
        (identGroup isIdentStart isWordChar cs2).map fun pr => [some pr.1]))

/-- Embeds `[\w<>,\[\]\s\?]` — the C# method type class. -/
def isCsharpTypeChar (c : Char) : Bool :=
  isWordChar c || c = '<' || c = '>' || c = ',' || c = '[' || c = ']' ||
    isSpaceChar c || c = '?'

/-- Embeds `^[+\-]\s*(?:public|private|protected|internal|static|virtual|override|sealed|async|extern|unsafe|new|partial|readonly|ref|in|out)?\s*[\w<>,\[\]\s\?]+\s+([A-Za-z_][\w]*)\s*\([^;{)]*\)\s*\{`
(csharp `method`). -/
def csharpMethodMatch (line : String) : Option (List (Option String)) :=
  (pmStart line).bind
    (withOptionalKw
      ["public", "private", "protected", "internal", "static", "virtual",
       "override", "sealed", "async", "extern", "unsafe", "new", "partial",
       "readonly", "ref", "in", "out"]
      (plusThen isCsharpTypeChar fun rest =>
        (spaces1 rest).bind fun cs1 =>
        (identGroup isIdentStart isWordChar cs1).bind fun pr =>
        (expectChar '(' (dropSpaces pr.2)).bind fun cs2 =>
        (expectChar ')' (takeNot [';', '\x7b', ')'] cs2).2).bind fun cs3 =>
        (expectChar '\x7b' (dropSpaces cs3)).map fun _ => [some pr.1]))

/-! ## `GitHubToolset._infer_language_from_filename` -/

/-- Structural-recursion split on the newline character (Python
`str.split` with the LF separator): always returns at least one
element — splitting the empty string gives a one-element list holding
the empty string — and agrees with `str.splitlines` on LF-separated
text up to a harmless trailing empty line. -/
def pySplitNlAux : List Char → List Char → List String
  | [], acc => [String.mk acc.reverse]
  | c :: rest, acc =>
    if c = '\n' then String.mk acc.reverse :: pySplitNlAux rest []
    else pySplitNlAux rest (c :: acc)

def pySplitNl (s : String) : List String :=
  pySplitNlAux s.toList []

/-- Embeds `str.lower()` (structural). -/
def strToLower (s : String) : String :=
  String.mk (s.toList.map Char.toLower)

/-- Embeds `str.endswith(suffix)` (structural). -/
def strEndsWith (s suffix : String) : Bool :=
  suffix.toList.isSuffixOf s.toList

/-- Embeds `str.startswith(pre)` (structural). -/
def strStartsWith (s pre : String) : Bool :=
  pre.toList.isPrefixOf s.toList

/-- Extension-based, case-insensitive language classification
(`_infer_language_from_filename`), checks in source order. -/
def infer_language_from_filename (filename : String) : String :=
  let lower := strToLower filename
  if strEndsWith lower ".py" then "python"
  else if strEndsWith lower ".ts" || strEndsWith lower ".tsx" then "typescript"
  else if strEndsWith lower ".js" || strEndsWith lower ".jsx" then "javascript"
  else if strEndsWith lower ".java" then "java"
  else if strEndsWith lower ".go" then "go"
  else if strEndsWith lower ".cls" || strEndsWith lower ".trigger" ||
      strEndsWith lower ".apex" then "apex"
  else if strEndsWith lower ".css" then "css"
  else if strEndsWith lower ".html" || strEndsWith lower ".htm" then "html"
  else if strEndsWith lower ".c" then "c"
  else if strEndsWith lower ".cpp" || strEndsWith lower ".cc" ||
      strEndsWith lower ".cxx" || strEndsWith lower ".hpp" ||
      strEndsWith lower ".hh" || strEndsWith lower ".hxx" then "cpp"
  else if strEndsWith lower ".cs" then "csharp"
  else if strEndsWith lower ".h" then "c"
  else "unknown"

/-! ## `GitHubToolset._parse_symbols_from_patch` -/

/-- An embedded compiled regex used with `.match`: capture-group list on
success. -/
abbrev RePattern := String → Option (List (Option String))

/-- Embeds `patterns_by_lang` — the per-language ordered tables of named
patterns, in the insertion order of the source dict literals
(`dict.items()` iterates in insertion order). -/
def patterns_by_lang (language : String) : List (String × RePattern) :=
  if language = "python" then
    [("func", pyDefMatch), ("class", pyClassMatch), ("method", pyDefMatch)]
  else if language = "javascript" then
    [("func", jsFuncMatch), ("class", jsClassMatch), ("method", jsMethodMatch)]
  else if language = "typescript" then
    [("func", tsFuncMatch), ("class", jsClassMatch), ("method", tsMethodMatch)]
  else if language = "java" then
    [("func", javaFuncMatch), ("class", javaClassMatch), ("method", javaFuncMatch)]
  else if language = "go" then
    [("func", goFuncMatch), ("class", goClassMatch), ("method", goMethodMatch)]
  else if language = "apex" then
    [("class", apexClassMatch), ("method", apexMethodMatch), ("func", apexTriggerMatch)]
  else if language = "c" then
    [("func", cFuncMatch)]
  else if language = "cpp" then
    [("class", cppClassMatch), ("func", cppFuncMatch), ("method", cppFuncMatch)]
  else if language = "csharp" then
    [("class", csharpClassMatch), ("method", csharpMethodMatch)]
  else []

/-- Embeds `ModifiedSymbol` — a function/class symbol modified within a diff
patch. -/
structure ModifiedSymbol where
  name : String
  kind : String
  change_type : String
  file : String
deriving DecidableEq, Repr

/-- Embeds `next((g for g in m.groups() if g), None)` — the first capture group
that is truthy (present and non-empty). -/
def firstTruthyGroup (gs : List (Option String)) : Option String :=
  gs.findSome? fun g =>
    match g with
    | some s => if s = "" then none else some s
    | none => none

/-- Embeds the kind-mapping conditional expression of the symbol append
(method stays method, class stays class, anything else becomes function). -/
def mapKind (kind : String) : String :=
  if kind = "method" then "method"
  else if kind = "class" then "class"
  else "function"

/-- The `for kind, pattern in lang_patterns.items(): ... break` loop:
the first pattern (in table order) whose `.match` succeeds wins; later
patterns are not tried. -/
def matchFirstPattern :
    List (String × RePattern) → String → Option (String × List (Option String))
  | [], _ => none
  | p :: rest, line =>
    match p.2 line with
    | some gs => some (p.1, gs)
    | none => matchFirstPattern rest line

/-- One added/removed/context line against the table of the language: the
first matching pattern produces at most one symbol, named by its first
truthy capture group. -/
def processDeclLine (tbl : List (String × RePattern))
    (filename line change_type : String) : Option ModifiedSymbol :=
  match matchFirstPattern tbl line with
  | none => none
  | some kg =>
    match firstTruthyGroup kg.2 with
    | none => none
    | some nm => some ⟨nm, mapKind kg.1, change_type, filename⟩

/-- The change-type classification at the top of the line loop. -/
def lineChangeType (line : String) : String :=
  if strStartsWith line "+" && !(strStartsWith line "+++") then "added"
  else if strStartsWith line "-" && !(strStartsWith line "---") then "removed"
  else "modified"

/-- Python `str.strip()` (whitespace on both ends). -/
def pyStrip (s : String) : String :=
  String.mk (((s.toList.dropWhile isSpaceChar).reverse.dropWhile isSpaceChar).reverse)

/-- Earliest occurrence of `@@` (the lazy `.*?@@`): characters after it. -/
def findAtAt : List Char → Option (List Char)
  | '@' :: '@' :: rest => some rest
  | _ :: rest => findAtAt rest
  | [] => none

/-- Embeds `hunk_header_re = ^@@.*?@@\s*(.*)$` used with `.match`: group 1 is
everything after the earliest closing `@@` with leading whitespace
consumed by the greedy `\s*`. -/
def hunkHeaderGroup (line : String) : Option String :=
  match line.toList with
  | '@' :: '@' :: rest => (findAtAt rest).map fun tail => String.mk (dropSpaces tail)
  | _ => none

/-- Embeds the `re.search` of pattern `([A-Za-z_$][\w$]*)\s*\(` over the
context text: scan positions
left to right; at each identifier-start position take the greedy word
run and require `(`, after optional whitespace, right after it. -/
def searchIdentParen : List Char → Option String
  | [] => none
  | c :: rest =>
    if isJsIdentStart c then
      let w := (c :: rest).takeWhile isJsWordChar
      match dropSpaces ((c :: rest).dropWhile isJsWordChar) with
      | '(' :: _ => some (String.mk w)
      | _ => searchIdentParen rest
    else searchIdentParen rest

/-- The hunk-header branch of the line loop (line starts with `@@`):
best-effort context recovery, independent of language. -/
def processHunkLine (filename line : String) : Option ModifiedSymbol :=
  match hunkHeaderGroup line with
  | none => none
  | some g =>
    let context := pyStrip g
    if context = "" then none
    else
      match searchIdentParen context.toList with
      | none => none
      | some nm => some ⟨nm, "unknown", "modified", filename⟩

/-- One iteration of the line loop of `_parse_symbols_from_patch`. -/
def processLine (tbl : List (String × RePattern)) (filename line : String) :
    List ModifiedSymbol :=
  if strStartsWith line "@@" then (processHunkLine filename line).toList
  else (processDeclLine tbl filename line (lineChangeType line)).toList

/-- All symbols appended by the line loop, in order, before
deduplication. -/
def rawSymbols (filename patch : String) : List ModifiedSymbol :=
  ((pySplitNl patch).map
    (processLine (patterns_by_lang (infer_language_from_filename filename)) filename)).flatten

/-- De-duplication key: `(s.file, s.name, s.kind, s.change_type)`. -/
abbrev SymKey := String × String × String × String

def symKey (s : ModifiedSymbol) : SymKey :=
  (s.file, s.name, s.kind, s.change_type)

/-- Embeds `unique[key] = s` on a Python dict: overwrite in place if the key is
present (insertion order of first occurrence is preserved), else append. -/
def dictInsert : List (SymKey × ModifiedSymbol) → SymKey → ModifiedSymbol →
    List (SymKey × ModifiedSymbol)
  | [], k, v => [(k, v)]
  | e :: rest, k, v =>
    if e.1 = k then (e.1, v) :: rest else e :: dictInsert rest k v

/-- The `unique` dict comprehension plus `list(unique.values())`. -/
def dedupSymbols (symbols : List ModifiedSymbol) : List ModifiedSymbol :=
  (symbols.foldl (fun acc s => dictInsert acc (symKey s) s) []).map Prod.snd

/-- Embeds `GitHubToolset._parse_symbols_from_patch`: empty/absent patch yields
`[]`; otherwise process the patch line by line and de-duplicate.
(Lines are split on `\n`; a possible trailing empty line produces no
symbol, matching `str.splitlines()` on LF-separated patches.) -/
def parse_symbols_from_patch (filename : String) (patch : Option String) :
    List ModifiedSymbol :=
  match patch with
  | none => []
  | some p => if p = "" then [] else dedupSymbols (rawSymbols filename p)

/-! ## `_extract_function_schema` (identical in `simple_agent_executor.py`
and `other/openai_agent_executor.py`)

A Python callable is embedded as its introspectable surface: name,
docstring (as returned by `inspect.getdoc`), and parameter list with
declared annotation and presence of a default. -/

/-- The declared annotation of a parameter as compared by the builder:
`inspect.Parameter.empty`, exactly one of the builtin types
`int`/`float`/`bool`/`list`/`dict`, plain `str`, a union such as
`int | None`, or anything else. -/
inductive PyAnn where
  | empty
  | aInt
  | aFloat
  | aBool
  | aList
  | aDict
  | aStr
  | aOptional (t : PyAnn)
  | aOther (s : String)
deriving DecidableEq, Repr

structure PyParam where
  name : String
  ann : PyAnn
  hasDefault : Bool
deriving DecidableEq, Repr

structure PyFunc where
  name : String
  docstring : Option String
  params : List PyParam
deriving DecidableEq, Repr

structure ParamSchema where
  ptype : String
  description : String
deriving DecidableEq, Repr

structure FunctionSchema where
  name : String
  description : String
  properties : List (String × ParamSchema)
  required : List String
deriving DecidableEq, Repr

/-- The annotation-to-JSON-schema-type chain of `_extract_function_schema`:
`param_type` is the string type by default; if the annotation is not
`inspect.Parameter.empty` it is compared with `==` against `int`,
`float`, `bool`, `list`, `dict` in turn (a union type such as
`int | None` is equal to none of them). -/
def inferParamType (a : PyAnn) : String :=
  if a = PyAnn.empty then "string"
  else if a = PyAnn.aInt then "integer"
  else if a = PyAnn.aFloat then "number"
  else if a = PyAnn.aBool then "boolean"
  else if a = PyAnn.aList then "array"
  else if a = PyAnn.aDict then "object"
  else "string"

/-- Embeds `_extract_function_schema`: description from the docstring
(first line if `lines` is non-empty, else the function name — but note
that the Python split of even an empty docstring yields a one-element
list, so `lines` is never empty), properties and required built in
parameter order. -/
def extract_function_schema (f : PyFunc) : FunctionSchema :=
  let docstring := f.docstring.getD ""
  let lines := pySplitNl docstring
  let description := if lines.isEmpty then f.name else lines.headD ""
  { name := f.name
    description := description
    properties := f.params.map fun p =>
      (p.name, ⟨inferParamType p.ann, "Parameter " ++ p.name⟩)
    required := (f.params.filter fun p => !p.hasDefault).map PyParam.name }

/-- The type mapping in the words of the specification (§4.4): used to
state refinement of `inferParamType` against the spec. -/
def specTypeFor (a : PyAnn) : String :=
  match a with
  | .aInt => "integer"
  | .aFloat => "number"
  | .aBool => "boolean"
  | .aList => "array"
  | .aDict => "object"
  | _ => "string"

/-- The introspectable signature of the bound method
`GitHubToolset.get_latest_commit_with_diff` (`self` excluded;
`limit: int | None = None`). -/
def get_latest_commit_with_diff_sig : PyFunc :=
  { name := "get_latest_commit_with_diff"
    docstring := some ("Get the most recent commits for a repository along with files changed, patches, and parsed symbols.\n\nArgs:\n    repo_name: Repository identifier in the form \x27repo\x27.\n    limit: Number of commits to return (default: 2)\n\nReturns:\n    CommitDiffResponse with commit metadata, changed files, and modified symbols per file.")
    params := [⟨"repo_name", .aStr, false⟩, ⟨"limit", .aOptional .aInt, true⟩] }

/-- The introspectable signature of the bound method
`GitHubToolset.get_recent_commits` (`self` excluded; `days` and `limit`
are `int | None = None`). -/
def get_recent_commits_sig : PyFunc :=
  { name := "get_recent_commits"
    docstring := some ("Get recent commits for a repository\n\nArgs:\n    repo_name: Repository name in format \x27repo\x27\n    days: Number of days to look for recent commits (default: 20 days)\n    limit: Maximum number of commits to return (default: 30)\n\nReturns:\n    CommitResponse: Contains status, commit list, and metadata")
    params := [⟨"repo_name", .aStr, false⟩, ⟨"days", .aOptional .aInt, true⟩,
               ⟨"limit", .aOptional .aInt, true⟩] }

/-! ## The tool dispatch loops

`SimpleGitHubAgent.chat` (ceiling 5) and
`OpenAIAgentExecutor._process_request` (ceiling 10).  The
chat-completion collaborator is an oracle from (1-based) round number
and current message history to either a raised exception (`.error`) or
a reply carrying optional content and a tool-call list (`tool_calls`
empty ⟺ falsy). -/

structure ToolCall where
  id : String
  name : String
  args : String
deriving DecidableEq, Repr

structure MessageObj where
  content : Option String
  tool_calls : List ToolCall
deriving DecidableEq, Repr

/-- A registered tool object: the attribute names it exposes and the
result of invoking one of them (a Pydantic model, a plain dict, or any
other value — carried with its serialized form). -/
inductive PyResult where
  | pModel (dumpJson : String)
  | pDict (json : String)
  | pOther (str : String)
deriving DecidableEq, Repr

structure ToolInstance where
  methods : List String
  run : String → String → PyResult

abbrev ToolsDict := List (String × ToolInstance)

/-- Embeds `function_name in tools_dict` / `tools_dict[function_name]`. -/
def lookupTool (tools : ToolsDict) (name : String) : Option ToolInstance :=
  match tools with
  | [] => none
  | e :: rest => if e.1 = name then some e.2 else lookupTool rest name

/-- Minimal JSON string escaping as performed by `json.dumps` on the
error payload values. -/
def jsonEscape (s : String) : String :=
  String.mk (s.toList.foldr
    (fun c acc => if c = '"' || c = '\\' then '\\' :: c :: acc else c :: acc) [])

/-- Embeds `json.dumps` of the one-entry error dict keyed `error`. -/
def errJson (msg : String) : String :=
  "\x7b\"error\": \"" ++ jsonEscape msg ++ "\"\x7d"

/-- Serialization of a tool result (`model_dump` for Pydantic models,
`json.dumps` for dicts, `str` otherwise). -/
def serializeResult : PyResult → String
  | .pModel j => j
  | .pDict j => j
  | .pOther s => s

/-- A conversation message (`role`, `content`, and for tool results the
correlation id). Assistant messages also carry the tool calls of the reply. -/
structure ChatMsg where
  role : String
  content : Option String
  tool_call_id : Option String := none
  tool_calls : List ToolCall := []
deriving DecidableEq, Repr

def assistantMsg (m : MessageObj) : ChatMsg :=
  { role := "assistant", content := m.content, tool_calls := m.tool_calls }

/-- One requested tool invocation of the `for tool_call in ...` body:
resolve the named tool in the registered table, fall back to a
structured `{error: ...}` payload if the tool or its operation is
missing, serialize, and build the tool-role message. -/
def execOneCall (tools : ToolsDict) (c : ToolCall) : ChatMsg :=
  let result : PyResult :=
    match lookupTool tools c.name with
    | some inst =>
      if c.name ∈ inst.methods then inst.run c.name c.args
      else .pDict (errJson ("Method " ++ c.name ++ " not found on tool instance"))
    | none => .pDict (errJson ("Function " ++ c.name ++ " not found"))
  { role := "tool", content := some (serializeResult result),
    tool_call_id := some c.id }

/-- The whole `for tool_call in message.tool_calls` loop: every call of
the batch is processed in order, each appending one tool-role message. -/
def executeToolCalls (tools : ToolsDict) : List ToolCall → List ChatMsg
  | [] => []
  | c :: rest => execOneCall tools c :: executeToolCalls tools rest

/-- The model-call collaborator: round number (1-based) and message
history to reply-or-exception. -/
abbrev ModelOracle := Nat → List ChatMsg → Except String MessageObj

def simpleAdvisory : String :=
  "❌ Sorry, the request has exceeded the maximum number of iterations."

/-- The `while iteration < max_iterations` loop of
`SimpleGitHubAgent.chat`, with `fuel = max_iterations - iteration`.
Returns the reply string together with the number of model rounds
actually performed.  A reply with tool calls executes them all and
continues; a reply with truthy content returns it; otherwise the loop
breaks — and both the break and loop exhaustion reach the trailing
`return` of the fixed advisory message. -/
def simpleChatLoop (tools : ToolsDict) (oracle : ModelOracle) :
    Nat → Nat → List ChatMsg → String × Nat
  | 0, iter, _msgs => (simpleAdvisory, iter)
  | fuel + 1, iter, msgs =>
    match oracle (iter + 1) msgs with
    | .error e =>
      ("❌ Sorry, an error occurred while processing your request: " ++ e, iter + 1)
    | .ok m =>
      let msgs1 := msgs ++ [assistantMsg m]
      if m.tool_calls.isEmpty then
        match m.content with
        | some c => if c = "" then (simpleAdvisory, iter + 1) else (c, iter + 1)
        | none => (simpleAdvisory, iter + 1)
      else
        simpleChatLoop tools oracle fuel (iter + 1)
          (msgs1 ++ executeToolCalls tools m.tool_calls)

/-- Embeds `SimpleGitHubAgent.chat`: OAuth precheck, then the dispatch loop
with `max_iterations = 5` over the system+user message history. -/
def simple_chat (hasToken : Bool) (tools : ToolsDict) (oracle : ModelOracle)
    (systemPrompt userMessage : String) : String × Nat :=
  if !hasToken then
    ("❌ You need to authenticate with GitHub first. Please log out and log back in.", 0)
  else
    simpleChatLoop tools oracle 5 0
      [{ role := "system", content := some systemPrompt },
       { role := "user", content := some userMessage }]

def openaiAdvisory : String :=
  "Sorry, the request has exceeded the maximum number of iterations."

/-- The `while iteration < max_iterations` loop of
`OpenAIAgentExecutor._process_request`: returns the artifacts emitted
inside the loop (final text or model-call error text) and the final
value of `iteration`. -/
def openaiLoop (tools : ToolsDict) (oracle : ModelOracle) :
    Nat → Nat → List ChatMsg → List String × Nat
  | 0, iter, _msgs => ([], iter)
  | fuel + 1, iter, msgs =>
    match oracle (iter + 1) msgs with
    | .error e =>
      (["Sorry, an error occurred while processing the request: " ++ e], iter + 1)
    | .ok m =>
      let msgs1 := msgs ++ [assistantMsg m]
      if m.tool_calls.isEmpty then
        (match m.content with
         | some c => if c = "" then [] else [c]
         | none => [], iter + 1)
      else
        openaiLoop tools oracle fuel (iter + 1)
          (msgs1 ++ executeToolCalls tools m.tool_calls)

/-- Embeds `OpenAIAgentExecutor._process_request` with `max_iterations = 10`:
after the loop, `if iteration >= max_iterations` appends the fixed
advisory artifact — also when the loop ended by `break` in its final
permitted round. -/
def openai_process_request (tools : ToolsDict) (oracle : ModelOracle)
    (systemPrompt userMessage : String) : List String :=
  let r := openaiLoop tools oracle 10 0
    [{ role := "system", content := some systemPrompt },
     { role := "user", content := some userMessage }]
  if r.2 ≥ 10 then r.1 ++ [openaiAdvisory] else r.1

/-! ## Commit aggregation (`get_latest_commit_with_diff`, `get_commit_diff`)

The external GitHub collaborator is embedded as an environment of
`Except`-valued operations: every call on it may raise. -/

/-- Embeds `GitHubCommit` (Pydantic): `author` and `date` are non-optional
`str` fields. -/
structure GitHubCommit where
  sha : String
  message : String
  author : String
  date : String
  url : String
deriving DecidableEq, Repr

/-- Embeds `CommitSummary`. -/
structure CommitSummary where
  files_changed : Option Nat
  total_additions : Option Nat
  total_deletions : Option Nat
  total_changes : Option Nat
deriving DecidableEq, Repr

/-- Embeds `DiffFileChange`. -/
structure DiffFileChange where
  filename : String
  status : Option String
  additions : Option Nat
  deletions : Option Nat
  changes : Option Nat
  patch : Option String
  modified_symbols : List ModifiedSymbol
deriving DecidableEq, Repr

/-- Embeds `CommitWithFiles`. -/
structure CommitWithFiles where
  commit : Option GitHubCommit
  files : List DiffFileChange
  summary : Option CommitSummary
deriving DecidableEq, Repr

/-- Embeds `CommitDiffResponse` (a `GitHubResponse` with a `commits` payload). -/
structure CommitDiffResponse where
  status : String
  message : String
  count : Option Nat
  error_message : Option String
  commits : List CommitWithFiles
deriving DecidableEq, Repr

/-- A raw changed file as returned by the collaborator
(`commit.files` entries; every stat may be absent/None). -/
structure GHFileRaw where
  filename : String
  status : Option String
  additions : Option Nat
  deletions : Option Nat
  changes : Option Nat
  patch : Option String
deriving DecidableEq, Repr

/-- A raw commit as returned by the collaborator; `author` is `None`
for commits without author metadata, `authorDateIso` is the already
UTC-normalized ISO date produced by the `astimezone`/`replace` branch. -/
structure GHCommitRaw where
  sha : String
  message : String
  author : Option String
  authorDateIso : Option String
  html_url : String
  files : List GHFileRaw
deriving DecidableEq, Repr

/-- The repository object: listing commits is itself a fallible call,
and so is fetching one commit by sha. -/
structure GHRepoRaw where
  commitsList : Except String (List GHCommitRaw)
  getCommit : String → Except String GHCommitRaw

/-- The GitHub client/environment: resolving the owner login (OAuth
store or `get_user()`) and fetching a repository may each raise. -/
structure GitHubEnv where
  ownerLogin : Except String String
  getRepo : String → Except String GHRepoRaw

/-- Embeds the `DiffFileChange(...)` construction for one raw file of
`commit.files`, with its parsed symbols (`symbols or []` is the
identity here since the parser already returns a list). -/
def mkDiffFileChange (f : GHFileRaw) : DiffFileChange :=
  { filename := f.filename, status := f.status,
    additions := f.additions, deletions := f.deletions,
    changes := f.changes, patch := f.patch,
    modified_symbols := parse_symbols_from_patch f.filename f.patch }

/-- Embeds one iteration of the `for f in commit.files` loop: append the
file record and accumulate
`getattr(f, <stat>, 0) or 0` for additions/deletions/changes into the totals. -/
def buildFilesStep (acc : List DiffFileChange × Nat × Nat × Nat)
    (f : GHFileRaw) : List DiffFileChange × Nat × Nat × Nat :=
  (acc.1 ++ [mkDiffFileChange f],
   acc.2.1 + f.additions.getD 0,
   acc.2.2.1 + f.deletions.getD 0,
   acc.2.2.2 + f.changes.getD 0)

/-- Embeds the whole `for f in commit.files` loop shared by both entry
points. -/
def buildFiles (raws : List GHFileRaw) :
    List DiffFileChange × Nat × Nat × Nat :=
  raws.foldl buildFilesStep ([], 0, 0, 0)

/-- The `CommitSummary(...)` construction after the file loop. -/
def buildSummary (files : List DiffFileChange) (ta td tc : Nat) : CommitSummary :=
  { files_changed := some files.length
    total_additions := some ta
    total_deletions := some td
    total_changes := some tc }

/-- Embeds `GitHubCommit(...)` for `get_latest_commit_with_diff`: with no
author, `None` is passed for the non-optional `author`/`date` fields
and Pydantic validation raises (caught by the outer boundary). -/
def mkCommitModel (c : GHCommitRaw) : Except String GitHubCommit :=
  match c.author, c.authorDateIso with
  | some a, some d =>
    .ok { sha := String.mk (c.sha.toList.take 8), message := c.message, author := a, date := d,
          url := c.html_url }
  | _, _ => .error "validation error for GitHubCommit"

/-- Aggregation of one raw commit into a `CommitWithFiles`. -/
def aggregateCommit (c : GHCommitRaw) : Except String CommitWithFiles :=
  match mkCommitModel c with
  | .error e => .error e
  | .ok cm =>
    let r := buildFiles c.files
    .ok { commit := some cm, files := r.1,
          summary := some (buildSummary r.1 r.2.1 r.2.2.1 r.2.2.2) }

/-- Aggregation of the fetched commit list, first failure propagating
to the boundary. -/
def aggregateCommits : List GHCommitRaw → Except String (List CommitWithFiles)
  | [] => .ok []
  | c :: rest =>
    match aggregateCommit c with
    | .error e => .error e
    | .ok cw =>
      match aggregateCommits rest with
      | .error e => .error e
      | .ok cws => .ok (cw :: cws)

/-- The success response shared shape of both entry points. -/
def successDiffResponse (cs : List CommitWithFiles) : CommitDiffResponse :=
  { status := "success"
    message := "Successfully retrieved " ++ toString cs.length ++
      " latest commits and parsed diffs"
    commits := cs
    count := some cs.length
    error_message := none }

/-- The body of the `try` block of `get_latest_commit_with_diff`:
resolve owner, fetch repo, list commits, aggregate the first `limit`. -/
def latestDiffBody (env : GitHubEnv) (repo_name : String) (lim : Nat) :
    Except String CommitDiffResponse :=
  match env.ownerLogin with
  | .error e => .error e
  | .ok owner =>
    match env.getRepo (owner ++ "/" ++ repo_name) with
    | .error e => .error e
    | .ok repo =>
      match repo.commitsList with
      | .error e => .error e
      | .ok commits =>
        match aggregateCommits (commits.take lim) with
        | .error e => .error e
        | .ok cs => .ok (successDiffResponse cs)

/-- Embeds `GitHubToolset.get_latest_commit_with_diff`: default `limit = 2`,
whole fetch+aggregate sequence wrapped in the `except Exception`
boundary producing a structured error response. -/
def get_latest_commit_with_diff (env : GitHubEnv) (repo_name : String)
    (limit : Option Nat) : CommitDiffResponse :=
  let lim := limit.getD 2
  match latestDiffBody env repo_name lim with
  | .ok r => r
  | .error e =>
    { status := "error"
      message := "Failed to get latest commits diff: " ++ e
      error_message := some ("Failed to get latest commits diff: " ++ e)
      commits := []
      count := none }

/-- The body of the `try` block of `get_commit_diff`: resolve owner,
fetch repo, fetch the one commit by sha, aggregate it. -/
def commitDiffBody (env : GitHubEnv) (repo_name sha : String) :
    Except String CommitDiffResponse :=
  match env.ownerLogin with
  | .error e => .error e
  | .ok owner =>
    match env.getRepo (owner ++ "/" ++ repo_name) with
    | .error e => .error e
    | .ok repo =>
      match repo.getCommit sha with
      | .error e => .error e
      | .ok commit =>
        match aggregateCommit commit with
        | .error e => .error e
        | .ok cw => .ok (successDiffResponse [cw])

/-- Embeds `GitHubToolset.get_commit_diff`: single-commit entry point with the
same failure boundary. -/
def get_commit_diff (env : GitHubEnv) (repo_name sha : String) :
    CommitDiffResponse :=
  match commitDiffBody env repo_name sha with
  | .ok r => r
  | .error e =>
    { status := "error"
      message := "Failed to get commit diff: " ++ e
      error_message := some ("Failed to get commit diff: " ++ e)
      commits := []
      count := none }

/-! ## Theorems -/

theorem matchFirstPattern_append (pre rest : List (String × RePattern))
    (line : String) (hpre : ∀ q ∈ pre, q.2 line = none) :
    matchFirstPattern (pre ++ rest) line = matchFirstPattern rest line := by
  induction pre with
  | nil => rfl
  | cons q qs ih =>
    have hq : q.2 line = none := hpre q (List.mem_cons_self q qs)
    simp only [List.cons_append, matchFirstPattern, hq]
    exact ih fun r hr => hpre r (List.mem_cons_of_mem q hr)

/-- C1: For every added or removed line of a patch whose file
classifies to a language with a pattern table, the extractor tries the
named patterns of that language in table order and only the first matching
pattern produces a symbol (the result does not depend on the later
patterns); the name of the symbol is the first non-empty capturing group and
its kind maps `class`→`class`, `method`→`method`, anything
else→`function`. Concretely, a Python-classified file `A.py` with patch
line `+def foo():` yields `{foo, function, added, A.py}` and `B.py` with
`-def foo():` yields `{foo, function, removed, B.py}`. -/
theorem C1_first_pattern_wins :
    (∀ (pre suf : List (String × RePattern)) (kind : String) (p : RePattern)
        (filename line ct : String) (gs : List (Option String)),
        (∀ q ∈ pre, q.2 line = none) → p line = some gs →
        processDeclLine (pre ++ (kind, p) :: suf) filename line ct =
          (match firstTruthyGroup gs with
           | some nm => some ⟨nm, mapKind kind, ct, filename⟩
           | none => none))
    ∧ (mapKind "class" = "class" ∧ mapKind "method" = "method" ∧
        ∀ k, k ≠ "class" → k ≠ "method" → mapKind k = "function")
    ∧ parse_symbols_from_patch "A.py" (some "+def foo():") =
        [{ name := "foo", kind := "function", change_type := "added", file := "A.py" }]
    ∧ parse_symbols_from_patch "B.py" (some "-def foo():") =
        [{ name := "foo", kind := "function", change_type := "removed", file := "B.py" }] := by
  refine ⟨?_, ⟨rfl, rfl, ?_⟩, rfl, rfl⟩
  · intro pre suf kind p filename line ct gs hpre hp
    unfold processDeclLine
    rw [matchFirstPattern_append pre _ line hpre]
    simp only [matchFirstPattern, hp]
    cases firstTruthyGroup gs <;> rfl
  · intro k h1 h2
    unfold mapKind
    rw [if_neg h2, if_neg h1]

/-- Witness for C1: instantiated on the concrete Python table, a line on
which the first table entry fails and the second matches. -/
theorem C1_first_pattern_wins_witness :
    processDeclLine
      [("func", pyDefMatch), ("class", pyClassMatch), ("method", pyDefMatch)]
      "w.py" "+class Foo:" "added" =
      some { name := "Foo", kind := "class", change_type := "added", file := "w.py" } := by
  have hpre : ∀ q ∈ [(("func" : String), (pyDefMatch : RePattern))],
      q.2 "+class Foo:" = none := by
    intro q hq
    simp only [List.mem_singleton] at hq
    subst hq
    rfl
  have h := C1_first_pattern_wins.1 [("func", pyDefMatch)]
    [("method", pyDefMatch)] "class" pyClassMatch "w.py" "+class Foo:" "added"
    [some "Foo"] hpre rfl
  exact h.trans rfl

theorem symKey_inj {a b : ModifiedSymbol} (h : symKey a = symKey b) : a = b := by
  cases a; cases b
  simp only [symKey, Prod.mk.injEq] at h
  obtain ⟨h1, h2, h3, h4⟩ := h
  subst h1; subst h2; subst h3; subst h4
  rfl

theorem snd_mem_dictInsert {l : List (SymKey × ModifiedSymbol)} {k : SymKey}
    {v : ModifiedSymbol} {e : SymKey × ModifiedSymbol}
    (h : e ∈ dictInsert l k v) : e.2 = v ∨ e ∈ l := by
  induction l with
  | nil =>
    simp only [dictInsert, List.mem_singleton] at h
    subst h; exact Or.inl rfl
  | cons hd tl ih =>
    simp only [dictInsert] at h
    by_cases hk : hd.1 = k
    · rw [if_pos hk] at h
      rcases List.mem_cons.mp h with h1 | h1
      · subst h1; exact Or.inl rfl
      · exact Or.inr (List.mem_cons_of_mem hd h1)
    · rw [if_neg hk] at h
      rcases List.mem_cons.mp h with h1 | h1
      · exact Or.inr (by rw [h1]; exact List.mem_cons_self hd tl)
      · rcases ih h1 with h2 | h2
        · exact Or.inl h2
        · exact Or.inr (List.mem_cons_of_mem hd h2)

theorem mem_dedup_fold {e : SymKey × ModifiedSymbol} :
    ∀ (syms : List ModifiedSymbol) (acc : List (SymKey × ModifiedSymbol)),
    e ∈ syms.foldl (fun a s => dictInsert a (symKey s) s) acc →
    e.2 ∈ syms ∨ e ∈ acc := by
  intro syms
  induction syms with
  | nil => intro acc h; exact Or.inr h
  | cons s ss ih =>
    intro acc h
    rcases ih (dictInsert acc (symKey s) s) h with h1 | h1
    · exact Or.inl (List.mem_cons_of_mem s h1)
    · rcases snd_mem_dictInsert h1 with h2 | h2
      · exact Or.inl (h2 ▸ List.mem_cons_self s ss)
      · exact Or.inr h2

theorem mem_dedupSymbols {s : ModifiedSymbol} {syms : List ModifiedSymbol}
    (h : s ∈ dedupSymbols syms) : s ∈ syms := by
  unfold dedupSymbols at h
  rcases List.mem_map.mp h with ⟨e, he, hes⟩
  rcases mem_dedup_fold syms [] he with h1 | h1
  · exact hes ▸ h1
  · simp at h1

theorem mem_keys_dictInsert {l : List (SymKey × ModifiedSymbol)} {k x : SymKey}
    {v : ModifiedSymbol} (h : x ∈ (dictInsert l k v).map Prod.fst) :
    x ∈ l.map Prod.fst ∨ x = k := by
  induction l with
  | nil => simp only [dictInsert, List.map_cons, List.map_nil,
      List.mem_singleton] at h; exact Or.inr h
  | cons hd tl ih =>
    simp only [dictInsert] at h
    by_cases hk : hd.1 = k
    · rw [if_pos hk] at h
      simp only [List.map_cons, List.mem_cons] at h
      rcases h with h1 | h1
      · exact Or.inl (by simp [h1])
      · exact Or.inl (by simp [h1])
    · rw [if_neg hk] at h
      simp only [List.map_cons, List.mem_cons] at h
      rcases h with h1 | h1
      · exact Or.inl (by simp [h1])
      · rcases ih h1 with h2 | h2
        · exact Or.inl (by simp; right; simpa using h2)
        · exact Or.inr h2

theorem nodup_keys_dictInsert {l : List (SymKey × ModifiedSymbol)} {k : SymKey}
    {v : ModifiedSymbol} (h : (l.map Prod.fst).Nodup) :
    ((dictInsert l k v).map Prod.fst).Nodup := by
  induction l with
  | nil => simp [dictInsert]
  | cons hd tl ih =>
    simp only [List.map_cons, List.nodup_cons] at h
    simp only [dictInsert]
    by_cases hk : hd.1 = k
    · rw [if_pos hk]
      simp only [List.map_cons, List.nodup_cons]
      exact h
    · rw [if_neg hk]
      simp only [List.map_cons, List.nodup_cons]
      refine ⟨?_, ih h.2⟩
      intro hmem
      rcases mem_keys_dictInsert hmem with h1 | h1
      · exact h.1 h1
      · exact hk h1

theorem keyed_dictInsert {l : List (SymKey × ModifiedSymbol)}
    {v : ModifiedSymbol} (h : ∀ e ∈ l, e.1 = symKey e.2) :
    ∀ e ∈ dictInsert l (symKey v) v, e.1 = symKey e.2 := by
  induction l with
  | nil =>
    intro e he
    simp only [dictInsert, List.mem_singleton] at he
    subst he; rfl
  | cons hd tl ih =>
    intro e he
    simp only [dictInsert] at he
    by_cases hk : hd.1 = symKey v
    · rw [if_pos hk] at he
      rcases List.mem_cons.mp he with h1 | h1
      · subst h1; exact hk
      · exact h _ (List.mem_cons_of_mem hd h1)
    · rw [if_neg hk] at he
      rcases List.mem_cons.mp he with h1 | h1
      · exact by rw [h1]; exact h hd (List.mem_cons_self hd tl)
      · exact ih (fun e1 he1 => h e1 (List.mem_cons_of_mem hd he1)) e h1

theorem fold_dedup_good :
    ∀ (syms : List ModifiedSymbol) (acc : List (SymKey × ModifiedSymbol)),
    (acc.map Prod.fst).Nodup → (∀ e ∈ acc, e.1 = symKey e.2) →
    ((syms.foldl (fun a s => dictInsert a (symKey s) s) acc).map Prod.fst).Nodup ∧
    (∀ e ∈ syms.foldl (fun a s => dictInsert a (symKey s) s) acc,
      e.1 = symKey e.2) := by
  intro syms
  induction syms with
  | nil => intro acc h1 h2; exact ⟨h1, h2⟩
  | cons s ss ih =>
    intro acc h1 h2
    exact ih (dictInsert acc (symKey s) s) (nodup_keys_dictInsert h1)
      (keyed_dictInsert h2)

theorem dedupSymbols_pairwise (syms : List ModifiedSymbol) :
    (dedupSymbols syms).Pairwise (fun a b => symKey a ≠ symKey b) := by
  obtain ⟨h1, h2⟩ := fold_dedup_good syms [] (by simp) (by simp)
  set l := syms.foldl (fun a s => dictInsert a (symKey s) s) [] with hl
  have hmapeq : l.map Prod.fst = l.map (fun e => symKey e.2) :=
    List.map_congr_left h2
  rw [hmapeq] at h1
  have h3 : (l.map (fun e => symKey e.2)) = (l.map Prod.snd).map symKey := by
    rw [List.map_map]
    rfl
  rw [h3] at h1
  have h1p : ((l.map Prod.snd).map symKey).Pairwise (fun a b => a ≠ b) := h1
  have h4 := List.pairwise_map.mp h1p
  unfold dedupSymbols
  rw [← hl]
  exact h4

theorem getLast_of_all_eq {α : Type} {s : α} :
    ∀ (L : List α), (∀ x ∈ L, x = s) → L ≠ [] → L.getLast? = some s := by
  intro L
  induction L with
  | nil => intro _ h; exact absurd rfl h
  | cons x xs ih =>
    intro hall _
    cases xs with
    | nil =>
      rw [hall x (List.mem_cons_self x [])]
      rfl
    | cons y ys =>
      rw [List.getLast?_cons_cons]
      exact ih (fun z hz => hall z (List.mem_cons_of_mem x hz)) (by simp)

/-- C2: for every filename and patch, the extractor output has at most
one `ModifiedSymbol` per identity tuple `(file, name, kind, change_type)`,
and the record kept for each surviving identity is the last one written
during line processing (with all four fields forming the key, equal to
every earlier record at the same key); two identical added-function
lines for the same file collapse to a single symbol. -/
theorem C2_dedup_last_write_wins :
    (∀ (filename : String) (patch : Option String),
        (parse_symbols_from_patch filename patch).Pairwise
          (fun a b => symKey a ≠ symKey b))
    ∧ (∀ (filename patch : String) (s : ModifiedSymbol),
        s ∈ dedupSymbols (rawSymbols filename patch) →
        ((rawSymbols filename patch).filter
          (fun t => symKey t == symKey s)).getLast? = some s)
    ∧ parse_symbols_from_patch "a.py" (some "+def foo():\n+def foo():") =
        [{ name := "foo", kind := "function", change_type := "added", file := "a.py" }] := by
  refine ⟨?_, ?_, rfl⟩
  · intro filename patch
    match patch with
    | none => simp [parse_symbols_from_patch]
    | some p =>
      simp only [parse_symbols_from_patch]
      by_cases hp : p = ""
      · rw [if_pos hp]; simp
      · rw [if_neg hp]
        exact dedupSymbols_pairwise _
  · intro filename patch s hs
    have hmem : s ∈ rawSymbols filename patch := mem_dedupSymbols hs
    have hfmem : s ∈ (rawSymbols filename patch).filter
        (fun t => symKey t == symKey s) :=
      List.mem_filter.mpr ⟨hmem, by simp⟩
    refine getLast_of_all_eq _ ?_ (List.ne_nil_of_mem hfmem)
    intro x hx
    have hx2 := List.mem_filter.mp hx
    exact symKey_inj (by simpa using hx2.2)

/-- Witness for C2: a concrete patch whose raw symbol stream repeats the
same identity, with the filter over the raw stream evaluated explicitly. -/
theorem C2_dedup_last_write_wins_witness :
    ((rawSymbols "a.py" "+def foo():\n+def foo():").filter
      (fun t => symKey t ==
        symKey { name := "foo", kind := "function", change_type := "added",
                 file := "a.py" })).getLast? =
      some { name := "foo", kind := "function", change_type := "added",
             file := "a.py" } := by
  refine C2_dedup_last_write_wins.2.1 "a.py" "+def foo():\n+def foo():" _ ?_
  decide

/-- C3: for every hunk-header line whose trailing context (after the
closing `@@`, stripped) contains an identifier followed by an opening
parenthesis, the line loop emits exactly one symbol with that
identifier as name, `kind = unknown`, `change_type = modified`,
independently of the language table; in particular the header
`@@ -1,3 +1,4 @@ def bar():` yields `{bar, unknown, modified}` both for
a Python file and for a CSS file (which has no pattern table). -/
theorem C3_hunk_header :
    (∀ (tbl : List (String × RePattern)) (filename line ctx nm : String),
        strStartsWith line "@@" = true →
        hunkHeaderGroup line = some ctx →
        searchIdentParen (pyStrip ctx).toList = some nm →
        processLine tbl filename line =
          [{ name := nm, kind := "unknown", change_type := "modified",
             file := filename }])
    ∧ parse_symbols_from_patch "x.py" (some "@@ -1,3 +1,4 @@ def bar():") =
        [{ name := "bar", kind := "unknown", change_type := "modified",
           file := "x.py" }]
    ∧ parse_symbols_from_patch "style.css" (some "@@ -1,3 +1,4 @@ def bar():") =
        [{ name := "bar", kind := "unknown", change_type := "modified",
           file := "style.css" }] := by
  refine ⟨?_, rfl, rfl⟩
  intro tbl filename line ctx nm hstart hg hsearch
  unfold processLine
  rw [if_pos hstart]
  unfold processHunkLine
  rw [hg]
  by_cases hc : pyStrip ctx = ""
  · have hnone : searchIdentParen (pyStrip ctx).toList = none := by
      rw [hc]; rfl
    exact absurd (hnone.symm.trans hsearch) (by simp)
  · simp only [if_neg hc, hsearch]
    rfl

/-- Witness for C3: a concrete header line with an empty (CSS) pattern
table. -/
theorem C3_hunk_header_witness :
    processLine [] "w.css" "@@ -1 +1 @@ f(x):" =
      [{ name := "f", kind := "unknown", change_type := "modified",
         file := "w.css" }] :=
  C3_hunk_header.1 [] "w.css" "@@ -1 +1 @@ f(x):" "f(x):" "f" rfl rfl rfl

theorem simpleChatLoop_rounds_le (tools : ToolsDict) (oracle : ModelOracle) :
    ∀ (fuel iter : Nat) (msgs : List ChatMsg),
    (simpleChatLoop tools oracle fuel iter msgs).2 ≤ iter + fuel := by
  intro fuel
  induction fuel with
  | zero => intro iter msgs; simp [simpleChatLoop]
  | succ n ih =>
    intro iter msgs
    unfold simpleChatLoop
    cases oracle (iter + 1) msgs with
    | error e => dsimp only; omega
    | ok m =>
      dsimp only
      by_cases hempty : m.tool_calls.isEmpty
      · rw [if_pos hempty]
        cases m.content with
        | none => dsimp only; omega
        | some c =>
          dsimp only
          by_cases hc : c = ""
          · rw [if_pos hc]; dsimp only; omega
          · rw [if_neg hc]; dsimp only; omega
      · rw [if_neg hempty]
        have hrec := ih (iter + 1)
          (msgs ++ [assistantMsg m] ++ executeToolCalls tools m.tool_calls)
        omega

theorem openaiLoop_rounds_le (tools : ToolsDict) (oracle : ModelOracle) :
    ∀ (fuel iter : Nat) (msgs : List ChatMsg),
    (openaiLoop tools oracle fuel iter msgs).2 ≤ iter + fuel := by
  intro fuel
  induction fuel with
  | zero => intro iter msgs; simp [openaiLoop]
  | succ n ih =>
    intro iter msgs
    unfold openaiLoop
    cases oracle (iter + 1) msgs with
    | error e => dsimp only; omega
    | ok m =>
      dsimp only
      by_cases hempty : m.tool_calls.isEmpty
      · rw [if_pos hempty]
        dsimp only
        omega
      · rw [if_neg hempty]
        have hrec := ih (iter + 1)
          (msgs ++ [assistantMsg m] ++ executeToolCalls tools m.tool_calls)
        omega

theorem simpleChatLoop_always_tools (tools : ToolsDict) (oracle : ModelOracle)
    (h : ∀ n msgs, ∃ m, oracle n msgs = .ok m ∧ m.tool_calls ≠ []) :
    ∀ (fuel iter : Nat) (msgs : List ChatMsg),
    simpleChatLoop tools oracle fuel iter msgs = (simpleAdvisory, iter + fuel) := by
  intro fuel
  induction fuel with
  | zero => intro iter msgs; rfl
  | succ n ih =>
    intro iter msgs
    obtain ⟨m, hm, hne⟩ := h (iter + 1) msgs
    unfold simpleChatLoop
    rw [hm]
    dsimp only
    have hempty : ¬(m.tool_calls.isEmpty = true) := by
      cases htc : m.tool_calls with
      | nil => exact absurd htc hne
      | cons a l => simp
    rw [if_neg hempty]
    rw [ih (iter + 1)
      (msgs ++ [assistantMsg m] ++ executeToolCalls tools m.tool_calls)]
    simp only [Prod.mk.injEq]
    exact ⟨trivial, by omega⟩

theorem openaiLoop_always_tools (tools : ToolsDict) (oracle : ModelOracle)
    (h : ∀ n msgs, ∃ m, oracle n msgs = .ok m ∧ m.tool_calls ≠ []) :
    ∀ (fuel iter : Nat) (msgs : List ChatMsg),
    openaiLoop tools oracle fuel iter msgs = ([], iter + fuel) := by
  intro fuel
  induction fuel with
  | zero => intro iter msgs; rfl
  | succ n ih =>
    intro iter msgs
    obtain ⟨m, hm, hne⟩ := h (iter + 1) msgs
    unfold openaiLoop
    rw [hm]
    dsimp only
    have hempty : ¬(m.tool_calls.isEmpty = true) := by
      cases htc : m.tool_calls with
      | nil => exact absurd htc hne
      | cons a l => simp
    rw [if_neg hempty]
    rw [ih (iter + 1)
      (msgs ++ [assistantMsg m] ++ executeToolCalls tools m.tool_calls)]
    simp only [Prod.mk.injEq]
    exact ⟨trivial, by omega⟩

/-- Counterexample for C4 as stated: in the full orchestration surface
(ceiling 10), a model that requests tool calls for nine rounds and
returns the final answer in round 10 reaches `Done` — the final text is
emitted and the task completed — and the fixed advisory is emitted as
well, because the post-loop check fires whenever the counter equals the
ceiling.  So the advisory is not emitted exactly when the ceiling is
reached without reaching `Done`. -/
theorem C4_iteration_ceiling_counterexample :
    openai_process_request []
      (fun n _ =>
        if n < 10 then
          .ok { content := none, tool_calls := [{ id := "1", name := "t", args := "" }] }
        else .ok { content := some "done", tool_calls := [] })
      "sys" "user" = ["done", openaiAdvisory] := by
  decide

/-- C4 (amended): the dispatch loops never exceed their configured
ceilings (5 model rounds in `SimpleGitHubAgent.chat`, 10 in
`OpenAIAgentExecutor._process_request`), and when the model always
requests a tool call they terminate with the fixed advisory message
after exactly the ceiling number of rounds; the full orchestration
surface, however, emits the advisory whenever the loop counter reaches
the ceiling — including when a final answer was produced in the final
permitted round (see the counterexample). -/
theorem C4_iteration_ceiling_amended :
    (∀ (tools : ToolsDict) (oracle : ModelOracle) (fuel iter : Nat)
        (msgs : List ChatMsg),
        (simpleChatLoop tools oracle fuel iter msgs).2 ≤ iter + fuel ∧
        (openaiLoop tools oracle fuel iter msgs).2 ≤ iter + fuel)
    ∧ (∀ (tools : ToolsDict) (oracle : ModelOracle) (sys user : String),
        (∀ n msgs, ∃ m, oracle n msgs = .ok m ∧ m.tool_calls ≠ []) →
        simple_chat true tools oracle sys user = (simpleAdvisory, 5) ∧
        openai_process_request tools oracle sys user = [openaiAdvisory]) := by
  constructor
  · intro tools oracle fuel iter msgs
    exact ⟨simpleChatLoop_rounds_le tools oracle fuel iter msgs,
           openaiLoop_rounds_le tools oracle fuel iter msgs⟩
  · intro tools oracle sys user h
    constructor
    · unfold simple_chat
      rw [if_neg (by simp)]
      exact simpleChatLoop_always_tools tools oracle h 5 0 _
    · unfold openai_process_request
      rw [openaiLoop_always_tools tools oracle h 10 0 _]
      rfl

/-- Witness for C4 (amended): a concrete model oracle that always
requests one tool call. -/
theorem C4_iteration_ceiling_amended_witness :
    simple_chat true []
      (fun _ _ => .ok ⟨none, [⟨"1", "t", ""⟩]⟩) "s" "u" =
      (simpleAdvisory, 5) ∧
    openai_process_request []
      (fun _ _ => .ok ⟨none, [⟨"1", "t", ""⟩]⟩) "s" "u" =
      [openaiAdvisory] := by
  refine C4_iteration_ceiling_amended.2 []
    (fun _ _ => .ok ⟨none, [⟨"1", "t", ""⟩]⟩) "s" "u" ?_
  intro n msgs
  exact ⟨_, rfl, by simp⟩

theorem executeToolCalls_eq_map (tools : ToolsDict) :
    ∀ calls : List ToolCall,
    executeToolCalls tools calls = calls.map (execOneCall tools) := by
  intro calls
  induction calls with
  | nil => rfl
  | cons c rest ih => simp only [executeToolCalls, List.map_cons, ih]

/-- C9: the tool-execution batch of the dispatch loop is total — every
requested call of a batch yields exactly one tool-role message, in
order (so processing continues with the remaining calls) — and a call
whose tool name is not registered, or whose named operation is missing
on the registered instance, produces the structured `{error: ...}`
payload as its result instead of raising. -/
theorem C9_missing_tool_error_payload :
    (∀ (tools : ToolsDict) (calls : List ToolCall),
        executeToolCalls tools calls = calls.map (execOneCall tools) ∧
        (executeToolCalls tools calls).length = calls.length)
    ∧ (∀ (tools : ToolsDict) (c : ToolCall),
        lookupTool tools c.name = none →
        execOneCall tools c =
          { role := "tool",
            content := some (errJson ("Function " ++ c.name ++ " not found")),
            tool_call_id := some c.id })
    ∧ (∀ (tools : ToolsDict) (c : ToolCall) (inst : ToolInstance),
        lookupTool tools c.name = some inst → c.name ∉ inst.methods →
        execOneCall tools c =
          { role := "tool",
            content := some (errJson ("Method " ++ c.name ++
              " not found on tool instance")),
            tool_call_id := some c.id }) := by
  refine ⟨?_, ?_, ?_⟩
  · intro tools calls
    refine ⟨executeToolCalls_eq_map tools calls, ?_⟩
    rw [executeToolCalls_eq_map tools calls, List.length_map]
  · intro tools c hnone
    unfold execOneCall
    rw [hnone]
    rfl
  · intro tools c inst hsome hnomem
    unfold execOneCall
    rw [hsome]
    dsimp only
    rw [if_neg (by simpa using hnomem)]
    rfl

/-- Witness for C9: an unregistered tool name against an empty table,
and a registered instance missing the named operation. -/
theorem C9_missing_tool_error_payload_witness :
    execOneCall [] ⟨"i1", "nope", ""⟩ =
      { role := "tool",
        content := some (errJson "Function nope not found"),
        tool_call_id := some "i1" } ∧
    execOneCall [("t", ⟨[], fun _ _ => PyResult.pOther "x"⟩)] ⟨"i2", "t", ""⟩ =
      { role := "tool",
        content := some (errJson "Method t not found on tool instance"),
        tool_call_id := some "i2" } :=
  ⟨C9_missing_tool_error_payload.2.1 [] ⟨"i1", "nope", ""⟩ rfl,
   C9_missing_tool_error_payload.2.2 [("t", ⟨[], fun _ _ => PyResult.pOther "x"⟩)]
     ⟨"i2", "t", ""⟩ ⟨[], fun _ _ => PyResult.pOther "x"⟩ rfl (by simp)⟩

theorem buildFiles_fold (raws : List GHFileRaw) :
    ∀ (acc : List DiffFileChange) (ta td tc : Nat),
    raws.foldl buildFilesStep (acc, ta, td, tc) =
      (acc ++ raws.map mkDiffFileChange,
       ta + (raws.map fun f => f.additions.getD 0).sum,
       td + (raws.map fun f => f.deletions.getD 0).sum,
       tc + (raws.map fun f => f.changes.getD 0).sum) := by
  induction raws with
  | nil => intro acc ta td tc; simp
  | cons f rest ih =>
    intro acc ta td tc
    simp only [List.foldl_cons, buildFilesStep, List.map_cons, List.sum_cons]
    rw [ih]
    simp [List.append_assoc, Nat.add_assoc]

/-- C6: for every aggregated commit, the produced `CommitSummary` has
`files_changed` equal to the number of files and each total equal to
the sum over the files of the commit of the respective per-file field with
absent values counted as zero; in particular two files with additions
3 and 5, deletions 1 and 2 (changes 4 and 7) yield
`files_changed = 2, total_additions = 8, total_deletions = 3`. -/
theorem C6_summary_totals :
    (∀ raws : List GHFileRaw,
        buildSummary (buildFiles raws).1 (buildFiles raws).2.1
            (buildFiles raws).2.2.1 (buildFiles raws).2.2.2 =
          { files_changed := some raws.length
            total_additions := some (raws.map fun f => f.additions.getD 0).sum
            total_deletions := some (raws.map fun f => f.deletions.getD 0).sum
            total_changes := some (raws.map fun f => f.changes.getD 0).sum })
    ∧ buildSummary (buildFiles [⟨"f1", none, some 3, some 1, some 4, none⟩,
          ⟨"f2", none, some 5, some 2, some 7, none⟩]).1
        (buildFiles [⟨"f1", none, some 3, some 1, some 4, none⟩,
          ⟨"f2", none, some 5, some 2, some 7, none⟩]).2.1
        (buildFiles [⟨"f1", none, some 3, some 1, some 4, none⟩,
          ⟨"f2", none, some 5, some 2, some 7, none⟩]).2.2.1
        (buildFiles [⟨"f1", none, some 3, some 1, some 4, none⟩,
          ⟨"f2", none, some 5, some 2, some 7, none⟩]).2.2.2 =
      { files_changed := some 2, total_additions := some 8,
        total_deletions := some 3, total_changes := some 11 } := by
  constructor
  · intro raws
    unfold buildFiles
    rw [buildFiles_fold raws [] 0 0 0]
    simp [buildSummary]
  · rfl

theorem latestDiffBody_ok {env : GitHubEnv} {repo_name : String} {lim : Nat}
    {r : CommitDiffResponse} (h : latestDiffBody env repo_name lim = .ok r) :
    ∃ cs, r = successDiffResponse cs := by
  unfold latestDiffBody at h
  split at h
  · exact absurd h (by simp)
  · split at h
    · exact absurd h (by simp)
    · split at h
      · exact absurd h (by simp)
      · split at h
        · exact absurd h (by simp)
        · simp only [Except.ok.injEq] at h
          exact ⟨_, h.symm⟩

theorem commitDiffBody_ok {env : GitHubEnv} {repo_name sha : String}
    {r : CommitDiffResponse} (h : commitDiffBody env repo_name sha = .ok r) :
    ∃ cs, r = successDiffResponse cs := by
  unfold commitDiffBody at h
  split at h
  · exact absurd h (by simp)
  · split at h
    · exact absurd h (by simp)
    · split at h
      · exact absurd h (by simp)
      · split at h
        · exact absurd h (by simp)
        · simp only [Except.ok.injEq] at h
          exact ⟨_, h.symm⟩

/-- C5: every exception raised anywhere inside the external-fetch plus
aggregate sequence of `get_latest_commit_with_diff` or `get_commit_diff`
is caught and converted into a structured response with
`status` equal to `error` and a populated `error_message`; the caller always
receives a well-formed response object (`status` is `success` with no
error message, or `error` with one), never the raw exception. -/
theorem C5_error_boundary :
    (∀ (env : GitHubEnv) (repo_name : String) (limit : Option Nat) (e : String),
        latestDiffBody env repo_name (limit.getD 2) = .error e →
        get_latest_commit_with_diff env repo_name limit =
          { status := "error",
            message := "Failed to get latest commits diff: " ++ e,
            error_message := some ("Failed to get latest commits diff: " ++ e),
            commits := [], count := none })
    ∧ (∀ (env : GitHubEnv) (repo_name : String) (limit : Option Nat),
        ((get_latest_commit_with_diff env repo_name limit).status = "success" ∧
         (get_latest_commit_with_diff env repo_name limit).error_message = none) ∨
        ((get_latest_commit_with_diff env repo_name limit).status = "error" ∧
         (get_latest_commit_with_diff env repo_name limit).error_message.isSome = true))
    ∧ (∀ (env : GitHubEnv) (repo_name sha e : String),
        commitDiffBody env repo_name sha = .error e →
        get_commit_diff env repo_name sha =
          { status := "error",
            message := "Failed to get commit diff: " ++ e,
            error_message := some ("Failed to get commit diff: " ++ e),
            commits := [], count := none })
    ∧ (∀ (env : GitHubEnv) (repo_name sha : String),
        ((get_commit_diff env repo_name sha).status = "success" ∧
         (get_commit_diff env repo_name sha).error_message = none) ∨
        ((get_commit_diff env repo_name sha).status = "error" ∧
         (get_commit_diff env repo_name sha).error_message.isSome = true)) := by
  refine ⟨?_, ?_, ?_, ?_⟩
  · intro env repo_name limit e h
    unfold get_latest_commit_with_diff
    dsimp only
    rw [h]
  · intro env repo_name limit
    cases hb : latestDiffBody env repo_name (limit.getD 2) with
    | ok r =>
      obtain ⟨cs, hcs⟩ := latestDiffBody_ok hb
      left
      have : get_latest_commit_with_diff env repo_name limit = r := by
        unfold get_latest_commit_with_diff
        dsimp only
        rw [hb]
      rw [this, hcs]
      exact ⟨rfl, rfl⟩
    | error e =>
      right
      have : get_latest_commit_with_diff env repo_name limit =
          { status := "error",
            message := "Failed to get latest commits diff: " ++ e,
            error_message := some ("Failed to get latest commits diff: " ++ e),
            commits := [], count := none } := by
        unfold get_latest_commit_with_diff
        dsimp only
        rw [hb]
      rw [this]
      exact ⟨rfl, rfl⟩
  · intro env repo_name sha e h
    unfold get_commit_diff
    rw [h]
  · intro env repo_name sha
    cases hb : commitDiffBody env repo_name sha with
    | ok r =>
      obtain ⟨cs, hcs⟩ := commitDiffBody_ok hb
      left
      have : get_commit_diff env repo_name sha = r := by
        unfold get_commit_diff
        rw [hb]
      rw [this, hcs]
      exact ⟨rfl, rfl⟩
    | error e =>
      right
      have : get_commit_diff env repo_name sha =
          { status := "error",
            message := "Failed to get commit diff: " ++ e,
            error_message := some ("Failed to get commit diff: " ++ e),
            commits := [], count := none } := by
        unfold get_commit_diff
        rw [hb]
      rw [this]
      exact ⟨rfl, rfl⟩

/-- Witness for C5: an environment whose owner-login resolution raises
an authentication failure. -/
theorem C5_error_boundary_witness :
    get_latest_commit_with_diff
      ⟨.error "401 Bad credentials", fun _ => .error "unreachable"⟩
      "myrepo" none =
      { status := "error",
        message := "Failed to get latest commits diff: 401 Bad credentials",
        error_message := some "Failed to get latest commits diff: 401 Bad credentials",
        commits := [], count := none } ∧
    get_commit_diff
      ⟨.error "401 Bad credentials", fun _ => .error "unreachable"⟩
      "myrepo" "abc123" =
      { status := "error",
        message := "Failed to get commit diff: 401 Bad credentials",
        error_message := some "Failed to get commit diff: 401 Bad credentials",
        commits := [], count := none } :=
  ⟨C5_error_boundary.1 ⟨.error "401 Bad credentials", fun _ => .error "unreachable"⟩
     "myrepo" none "401 Bad credentials" rfl,
   C5_error_boundary.2.2.1 ⟨.error "401 Bad credentials", fun _ => .error "unreachable"⟩
     "myrepo" "abc123" "401 Bad credentials" rfl⟩

theorem inferParamType_eq_spec : ∀ a : PyAnn, inferParamType a = specTypeFor a := by
  intro a
  cases a <;> rfl

/-- C7: the built schema marks a parameter required exactly when it
lacks a default, and infers the schema type of each parameter from its
declared annotation by the mapping `int→integer`, `float→number`,
`bool→boolean`, `list→array`, `dict→object`, anything else (including
untyped)→`string`; in particular `(path: str, limit: int = 10)` yields
`required = [path]` and `properties.limit.type = integer`. -/
theorem C7_schema_required_and_types :
    (∀ f : PyFunc,
        (extract_function_schema f).required =
          (f.params.filter fun p => !p.hasDefault).map PyParam.name ∧
        (extract_function_schema f).properties =
          f.params.map fun p =>
            (p.name, ⟨specTypeFor p.ann, "Parameter " ++ p.name⟩))
    ∧ (∀ a : PyAnn, inferParamType a = specTypeFor a)
    ∧ (∀ (f : PyFunc) (p : PyParam), p ∈ f.params →
        (f.params.map PyParam.name).Nodup →
        (p.name ∈ (extract_function_schema f).required ↔ p.hasDefault = false))
    ∧ (extract_function_schema
        ⟨"tool", some "A tool.", [⟨"path", .aStr, false⟩, ⟨"limit", .aInt, true⟩]⟩).required
        = ["path"]
    ∧ (extract_function_schema
        ⟨"tool", some "A tool.", [⟨"path", .aStr, false⟩, ⟨"limit", .aInt, true⟩]⟩).properties.lookup "limit"
        = some ⟨"integer", "Parameter limit"⟩ := by
  refine ⟨?_, inferParamType_eq_spec, ?_, rfl, rfl⟩
  · intro f
    refine ⟨rfl, ?_⟩
    unfold extract_function_schema
    dsimp only
    exact List.map_congr_left fun p _ => by rw [inferParamType_eq_spec]
  · intro f p hp hnodup
    unfold extract_function_schema
    dsimp only
    constructor
    · intro hmem
      rcases List.mem_map.mp hmem with ⟨q, hq, hqname⟩
      have hqf := List.mem_filter.mp hq
      have hqp : q = p :=
        List.inj_on_of_nodup_map hnodup hqf.1 hp hqname
      rw [← hqp]
      simpa using hqf.2
    · intro hdef
      refine List.mem_map.mpr ⟨p, List.mem_filter.mpr ⟨hp, by simp [hdef]⟩, rfl⟩

/-- Witness for C7: the required-iff instantiated at the example tool
parameter lacking a default. -/
theorem C7_schema_required_and_types_witness :
    "path" ∈ (extract_function_schema
      ⟨"tool", some "A tool.", [⟨"path", .aStr, false⟩, ⟨"limit", .aInt, true⟩]⟩).required :=
  (C7_schema_required_and_types.2.2.1
    ⟨"tool", some "A tool.", [⟨"path", .aStr, false⟩, ⟨"limit", .aInt, true⟩]⟩
    ⟨"path", .aStr, false⟩ (by simp) (by simp)).mpr rfl

theorem pySplitNlAux_ne_nil : ∀ (cs acc : List Char), pySplitNlAux cs acc ≠ [] := by
  intro cs
  induction cs with
  | nil => intro acc; simp [pySplitNlAux]
  | cons c rest ih =>
    intro acc
    unfold pySplitNlAux
    by_cases hc : c = '\n'
    · rw [if_pos hc]; simp
    · rw [if_neg hc]; exact ih (c :: acc)

/-- C8: the schema description is the first docstring line when
documentation exists, but for a tool WITHOUT documentation it is the
empty string, not the name of the tool: the Python split of an empty
docstring is a one-element list holding the empty string — never the
empty list — so `lines` is always truthy and the fallback branch
returning the function name is unreachable (the code contradicts the
specified fallback-to-name behaviour: a doc-less tool named `mytool`
gets the empty description where the spec requires `mytool`). -/
theorem C8_description_fallback_dead :
    (extract_function_schema
      ⟨"doc_tool", some "First line.\nSecond line.", []⟩).description = "First line."
    ∧ (extract_function_schema ⟨"mytool", none, []⟩).description = ""
    ∧ (∀ s : String, 1 ≤ (pySplitNl s).length) := by
  refine ⟨rfl, rfl, ?_⟩
  intro s
  cases hs : pySplitNl s with
  | nil => exact absurd hs (pySplitNlAux_ne_nil s.toList [])
  | cons a l => simp

/-- C10: any annotation that is not exactly one of the builtin types
`int`/`float`/`bool`/`list`/`dict` — in particular every union
annotation such as `int | None` — is advertised with schema type
`string`; consequently the optional parameters of the registered GitHub
tools (`days`, `limit`) get type `string`, not `integer`. -/
theorem C10_union_annotations_string :
    (∀ a : PyAnn, a ≠ .aInt → a ≠ .aFloat → a ≠ .aBool → a ≠ .aList →
        a ≠ .aDict → inferParamType a = "string")
    ∧ (∀ t : PyAnn, inferParamType (.aOptional t) = "string")
    ∧ (extract_function_schema get_recent_commits_sig).properties.lookup "days" =
        some ⟨"string", "Parameter days"⟩
    ∧ (extract_function_schema get_recent_commits_sig).properties.lookup "limit" =
        some ⟨"string", "Parameter limit"⟩
    ∧ (extract_function_schema get_latest_commit_with_diff_sig).properties.lookup "limit" =
        some ⟨"string", "Parameter limit"⟩ := by
  refine ⟨?_, ?_, rfl, rfl, rfl⟩
  · intro a h1 h2 h3 h4 h5
    simp [inferParamType, h1, h2, h3, h4, h5]
  · intro t
    rfl

/-- Witness for C10: a concrete union annotation `int | None`. -/
theorem C10_union_annotations_string_witness :
    inferParamType (.aOptional .aInt) = "string" :=
  C10_union_annotations_string.1 (.aOptional .aInt) (by simp) (by simp)
    (by simp) (by simp) (by simp)
